import Mathlib

set_option maxRecDepth 8000

/-
Shallow embedding of the WEAM-INT integration tool.

The embedding follows the JavaScript sources file by file:
  AIIntegrator   (applyAIChanges, parseAIResponse, integrateApp, generateSummary)
  AppScanner     (scanApp, analyzePackageJson, detectFramework, extractRoutes, ...)
  CodeGenerator  (generateIntegration, updatePackageJson, getAppPort, ...)
  IntegrationTester (testIntegration and the six test steps)

Filesystems are modelled as association lists from path strings to file
contents; the two external LLM exchanges of the mutation engine are
modelled as function parameters carrying exactly the data the code sends
(current file content and the edit directive).  Node path.join is
modelled as plain slash concatenation; no theorem below depends on path
normalisation.  String primitives of the source language (startsWith,
trim, split, endsWith) are given executable character-list definitions
so the kernel can evaluate them on concrete inputs.
-/

namespace WeamInt

/-! ## Basic string and path helpers -/

def pathJoin (a b : String) : String := a ++ "/" ++ b

/-- Whitespace for trim and the regex class backslash-s (ASCII subset). -/
def isSpaceChar (c : Char) : Bool := c == ' ' || c == '\t' || c == '\n' || c == '\r'

/-- JS regex word characters. -/
def isWordChar (c : Char) : Bool :=
  (('a' ≤ c && c ≤ 'z') || ('A' ≤ c && c ≤ 'Z') || ('0' ≤ c && c ≤ '9') || c == '_')

def litPrefix : List Char → List Char → Bool
  | [], _ => true
  | _ :: _, [] => false
  | a :: as, b :: bs => a == b && litPrefix as bs

/-- Match a literal at the front, returning the remainder. -/
def dropLit : List Char → List Char → Option (List Char)
  | [], s => some s
  | _ :: _, [] => none
  | a :: as, b :: bs => if a == b then dropLit as bs else none

def strStartsWith (s pat : String) : Bool := litPrefix pat.data s.data

def strEndsWith (s pat : String) : Bool := litPrefix pat.data.reverse s.data.reverse

def subMatch (needle : List Char) : List Char → Bool
  | [] => needle.isEmpty
  | c :: cs => litPrefix needle (c :: cs) || subMatch needle cs

/-- JS String.includes. -/
def containsStr (hay needle : String) : Bool := subMatch needle.data hay.data

/-- JS String.trim (ASCII whitespace). -/
def trimStr (s : String) : String :=
  ⟨((s.data.dropWhile isSpaceChar).reverse.dropWhile isSpaceChar).reverse⟩

def strDropN (s : String) (n : Nat) : String := ⟨s.data.drop n⟩

def splitCharAux (sep : Char) : List Char → List (List Char)
  | [] => [[]]
  | c :: cs =>
    let r := splitCharAux sep cs
    if c == sep then [] :: r
    else
      match r with
      | [] => [[c]]
      | h :: t => (c :: h) :: t

/-- JS String.split with a single-character separator. -/
def splitLines (s : String) : List String := (splitCharAux '\n' s.data).map (fun l => ⟨l⟩)

/-! ## MutationEngine (AIIntegrator) data model -/

/-- One edit directive parsed from the oracle response
(JS object with filePath, action, changes). -/
structure Recommendation where
  filePath : String
  action : String
  changes : String
deriving DecidableEq

/-- One entry of the change list returned by applyAIChanges. -/
structure Change where
  file : String
  action : String
  success : Bool
  error : Option String
deriving DecidableEq

def lookupA : List (String × String) → String → Option String
  | [], _ => none
  | kv :: rest, q => if q = kv.1 then some kv.2 else lookupA rest q

def removeA : List (String × String) → String → List (String × String)
  | [], _ => []
  | kv :: rest, p => if kv.1 = p then removeA rest p else kv :: removeA rest p

/-- The on-disk app tree for the mutation engine: path to text content. -/
structure FS where
  files : List (String × String)
deriving DecidableEq

def FS.read (fs : FS) (p : String) : Option String := lookupA fs.files p

def FS.write (fs : FS) (p c : String) : FS := ⟨(p, c) :: removeA fs.files p⟩

/-! ## parseAIResponse

JS: split the response on newline; a line starting with the marker
String "File:" opens a new directive whose path is the rest of the line
trimmed (the JS replace removes the five marker characters); any later
nonblank line is appended to the open directive followed by a newline;
lines before the first marker are skipped. -/

def mkRec (l : String) : Recommendation :=
  { filePath := trimStr (strDropN l 5), action := "modify", changes := "" }

def parseLines : List String → Option Recommendation → List Recommendation
  | [], none => []
  | [], some r => [r]
  | l :: ls, none =>
    if strStartsWith l "File:" then parseLines ls (some (mkRec l))
    else parseLines ls none
  | l :: ls, some r =>
    if strStartsWith l "File:" then r :: parseLines ls (some (mkRec l))
    else if trimStr l = "" then parseLines ls (some r)
    else parseLines ls (some { r with changes := r.changes ++ l ++ "\n" })

def parseAIResponse (response : String) : List Recommendation :=
  parseLines (splitLines response) none

/-! ## applyAIChanges

For each directive: read the current content if the target exists (else
the empty string), ask the rewrite oracle for the complete replacement
content, create parent directories and write it, recording success or
failure per directive inside a per-directive try/catch.  The rewrite
oracle (the second LLM exchange, applyFileChanges) is a parameter
receiving exactly the data the code sends: the current content and the
directive.  Write failures (permissions, path issues) are modelled by a
predicate on the joined target path. -/

def applyOne (appPath : String) (oracle : String → Recommendation → Except String String)
    (bad : String → Bool) (fs : FS) (rec : Recommendation) : FS × Change :=
  match oracle ((fs.read (pathJoin appPath rec.filePath)).getD "") rec with
  | .error e => (fs, { file := rec.filePath, action := rec.action, success := false, error := some e })
  | .ok newContent =>
    if bad (pathJoin appPath rec.filePath) then
      (fs, { file := rec.filePath, action := rec.action, success := false,
             error := some "EACCES: permission denied" })
    else
      (fs.write (pathJoin appPath rec.filePath) newContent,
       { file := rec.filePath, action := rec.action, success := true, error := none })

def applyAIChanges (appPath : String) (oracle : String → Recommendation → Except String String)
    (bad : String → Bool) : FS → List Recommendation → FS × List Change
  | fs, [] => (fs, [])
  | fs, r :: rs =>
    let step := applyOne appPath oracle bad fs r
    let rest := applyAIChanges appPath oracle bad step.1 rs
    (rest.1, step.2 :: rest.2)

/-! ## integrateApp -/

structure IntegrationSummary where
  total : Nat
  successful : Nat
  failed : Nat
  files : List String
deriving DecidableEq

structure IntegrationResult where
  success : Bool
  changes : List Change
  summary : IntegrationSummary
deriving DecidableEq

def generateSummary (changes : List Change) : IntegrationSummary :=
  { total := changes.length,
    successful := (changes.filter (fun c => c.success)).length,
    failed := (changes.filter (fun c => !c.success)).length,
    files := changes.map (fun c => c.file) }

/-- integrateApp: analyze the app, obtain the first oracle response
(modelled by the resp parameter, which is the only use the code makes of
the analysis), parse it into directives, apply them, and return a
successful result.  The catch branch of the JS code rethrows only
exceptions of the oracle transport, which the model carries inside the
oracle parameters. -/
def integrateApp (fs : FS) (appPath : String) (resp : String)
    (oracle : String → Recommendation → Except String String)
    (bad : String → Bool) : FS × IntegrationResult :=
  let recommendations := parseAIResponse resp
  let applied := applyAIChanges appPath oracle bad fs recommendations
  (applied.1,
   { success := true, changes := applied.2, summary := generateSummary applied.2 })

/-! ## Filesystem lemmas -/

theorem lookupA_removeA (l : List (String × String)) (p q : String) (h : q ≠ p) :
    lookupA (removeA l p) q = lookupA l q := by
  induction l with
  | nil => rfl
  | cons kv rest ih =>
    by_cases hk : kv.1 = p
    · have hq : q ≠ kv.1 := fun he => h (he.trans hk)
      simp [removeA, lookupA, hk, hq, h, ih]
    · simp only [removeA, if_neg hk]
      by_cases hq : q = kv.1
      · simp [lookupA, hq]
      · simp [lookupA, hq, ih]

theorem FS.read_write (fs : FS) (p c q : String) :
    (fs.write p c).read q = if q = p then some c else fs.read q := by
  by_cases h : q = p
  · simp [FS.read, FS.write, lookupA, h]
  · simp [FS.read, FS.write, lookupA, h, lookupA_removeA fs.files p q h]

/-- The filesystem part of one directive application changes at most the
target path of that directive. -/
theorem applyOne_read_other (appPath : String)
    (oracle : String → Recommendation → Except String String) (bad : String → Bool)
    (fs : FS) (r : Recommendation) (q : String) (hq : q ≠ pathJoin appPath r.filePath) :
    (applyOne appPath oracle bad fs r).1.read q = fs.read q := by
  unfold applyOne
  cases h : oracle ((fs.read (pathJoin appPath r.filePath)).getD "") r with
  | error e => simp [h]
  | ok newContent =>
    by_cases hb : bad (pathJoin appPath r.filePath)
    · simp [h, hb]
    · simp [h, hb, FS.read_write, hq]

/-! ## C1 : backup behaviour -/

/-- Claim C1 counterexample: a concrete mutation run on a pre-existing
target file.  Before the run the target holds the old content; after
the run the target holds the oracle output and NO sibling file with the
.bak suffix exists.  The code of applyAIChanges contains no backup copy
step at all, refuting the claim that every pre-existing mutated file
gains a backup sibling holding the pre-mutation content. -/
theorem backup_missing_on_preexisting_target :
    (FS.mk [("app/index.js", "old content")]).read "app/index.js" = some "old content" ∧
    ((applyAIChanges "app" (fun _ _ => .ok "new content") (fun _ => false)
        (FS.mk [("app/index.js", "old content")])
        [{ filePath := "index.js", action := "modify", changes := "add weam" }]).1.read
      "app/index.js" = some "new content") ∧
    ((applyAIChanges "app" (fun _ _ => .ok "new content") (fun _ => false)
        (FS.mk [("app/index.js", "old content")])
        [{ filePath := "index.js", action := "modify", changes := "add weam" }]).1.read
      "app/index.js.bak" = none) := by
  refine ⟨rfl, ?_, ?_⟩ <;> rfl

/-- Claim C1 (amended): the mutation run never creates any backup.  The
only paths the run can bring into existence are the directive target
paths themselves, so as long as no directive targets a path with the
.bak suffix and the initial tree holds none, the final tree holds no
path with the .bak suffix either, whether or not targets pre-existed. -/
theorem applyAIChanges_never_creates_bak (appPath : String)
    (oracle : String → Recommendation → Except String String) (bad : String → Bool)
    (fs : FS) (recs : List Recommendation)
    (hrec : ∀ r ∈ recs, strEndsWith (pathJoin appPath r.filePath) ".bak" = false)
    (hfs : ∀ p, strEndsWith p ".bak" = true → fs.read p = none) :
    ∀ p, strEndsWith p ".bak" = true →
      (applyAIChanges appPath oracle bad fs recs).1.read p = none := by
  induction recs generalizing fs with
  | nil => exact fun p hp => hfs p hp
  | cons r rs ih =>
    intro p hp
    have hr := hrec r (List.mem_cons_self r rs)
    have hstep : ∀ q, strEndsWith q ".bak" = true →
        (applyOne appPath oracle bad fs r).1.read q = none := by
      intro q hq
      have hne : q ≠ pathJoin appPath r.filePath := by
        intro he
        rw [he, hr] at hq
        exact Bool.false_ne_true hq
      rw [applyOne_read_other appPath oracle bad fs r q hne]
      exact hfs q hq
    have := ih ((applyOne appPath oracle bad fs r).1)
      (fun r2 h2 => hrec r2 (List.mem_cons_of_mem r h2)) hstep p hp
    simpa [applyAIChanges] using this

/-- Witness for the amended C1 theorem at a concrete input. -/
theorem applyAIChanges_never_creates_bak_witness :
    (applyAIChanges "app" (fun _ _ => .ok "fresh") (fun _ => false)
        (FS.mk [])
        [{ filePath := "a.js", action := "modify", changes := "c" },
         { filePath := "b.js", action := "modify", changes := "c" }]).1.read
      "app/a.js.bak" = none := by
  exact applyAIChanges_never_creates_bak "app" (fun _ _ => .ok "fresh") (fun _ => false)
    (FS.mk [])
    [{ filePath := "a.js", action := "modify", changes := "c" },
     { filePath := "b.js", action := "modify", changes := "c" }]
    (by decide) (fun p _ => rfl) "app/a.js.bak" (by decide)

/-! ## C6 : per-directive failure isolation -/

theorem applyOne_change_fields (appPath : String)
    (oracle : String → Recommendation → Except String String) (bad : String → Bool)
    (fs : FS) (r : Recommendation)
    (hok : ∃ s, oracle ((fs.read (pathJoin appPath r.filePath)).getD "") r = .ok s) :
    (applyOne appPath oracle bad fs r).2.file = r.filePath ∧
    (applyOne appPath oracle bad fs r).2.success = !bad (pathJoin appPath r.filePath) := by
  obtain ⟨s, hs⟩ := hok
  by_cases hb : bad (pathJoin appPath r.filePath) <;> simp [applyOne, hs, hb]

theorem applyAIChanges_stats (appPath : String)
    (oracle : String → Recommendation → Except String String) (bad : String → Bool)
    (hok : ∀ c r, ∃ s, oracle c r = .ok s) :
    ∀ (recs : List Recommendation) (fs : FS),
      (applyAIChanges appPath oracle bad fs recs).2.length = recs.length ∧
      (applyAIChanges appPath oracle bad fs recs).2.map (fun c => c.file)
        = recs.map (fun r => r.filePath) ∧
      (applyAIChanges appPath oracle bad fs recs).2.countP (fun ch => !ch.success)
        = recs.countP (fun r => bad (pathJoin appPath r.filePath)) := by
  intro recs
  induction recs with
  | nil => intro fs; simp [applyAIChanges]
  | cons r rs ih =>
    intro fs
    have hchange := applyOne_change_fields appPath oracle bad fs r
      (hok ((fs.read (pathJoin appPath r.filePath)).getD "") r)
    have hrest := ih (applyOne appPath oracle bad fs r).1
    simp only [applyAIChanges, List.length_cons, List.map_cons, List.countP_cons]
    refine ⟨by rw [hrest.1], by rw [hrest.2.1, hchange.1], ?_⟩
    rw [hrest.2.2, hchange.2]
    by_cases hb : bad (pathJoin appPath r.filePath) <;> simp [hb]

/-- Claim C6: in a mutation run with N directives where exactly one
directive targets an unwritable path (and the rewrite oracle answers
every request), the change list has exactly N entries, exactly one of
which is a failure, and every directive still appears in the list in
order, so the failure does not stop the remaining directives. -/
theorem mutation_failure_isolated (appPath : String)
    (oracle : String → Recommendation → Except String String) (bad : String → Bool)
    (fs : FS) (recs : List Recommendation)
    (hok : ∀ c r, ∃ s, oracle c r = .ok s)
    (h1 : recs.countP (fun r => bad (pathJoin appPath r.filePath)) = 1) :
    (applyAIChanges appPath oracle bad fs recs).2.length = recs.length ∧
    (applyAIChanges appPath oracle bad fs recs).2.countP (fun ch => !ch.success) = 1 ∧
    (applyAIChanges appPath oracle bad fs recs).2.map (fun c => c.file)
      = recs.map (fun r => r.filePath) := by
  have h := applyAIChanges_stats appPath oracle bad hok recs fs
  exact ⟨h.1, by rw [h.2.2, h1], h.2.1⟩

/-- Witness for C6: two directives, the second targeting an unwritable
path; the report has two entries with exactly one failure. -/
theorem mutation_failure_isolated_witness :
    (applyAIChanges "app" (fun c _ => .ok ("x" ++ c)) (fun p => p == "app/locked.js")
        (FS.mk [])
        [{ filePath := "a.js", action := "modify", changes := "c" },
         { filePath := "locked.js", action := "modify", changes := "c" }]).2.length
      = ([{ filePath := "a.js", action := "modify", changes := "c" },
          { filePath := "locked.js", action := "modify", changes := "c" }] :
            List Recommendation).length ∧
    (applyAIChanges "app" (fun c _ => .ok ("x" ++ c)) (fun p => p == "app/locked.js")
        (FS.mk [])
        [{ filePath := "a.js", action := "modify", changes := "c" },
         { filePath := "locked.js", action := "modify", changes := "c" }]).2.countP
        (fun ch => !ch.success) = 1 ∧
    (applyAIChanges "app" (fun c _ => .ok ("x" ++ c)) (fun p => p == "app/locked.js")
        (FS.mk [])
        [{ filePath := "a.js", action := "modify", changes := "c" },
         { filePath := "locked.js", action := "modify", changes := "c" }]).2.map
        (fun c => c.file)
      = ([{ filePath := "a.js", action := "modify", changes := "c" },
          { filePath := "locked.js", action := "modify", changes := "c" }] :
            List Recommendation).map (fun r => r.filePath) := by
  exact mutation_failure_isolated "app" (fun c _ => .ok ("x" ++ c))
    (fun p => p == "app/locked.js") (FS.mk [])
    [{ filePath := "a.js", action := "modify", changes := "c" },
     { filePath := "locked.js", action := "modify", changes := "c" }]
    (fun c r => ⟨"x" ++ c, rfl⟩) (by decide)

/-! ## C5 : malformed oracle response degrades to an empty change set -/

theorem parseLines_skip_nonmarker (pre rest : List String)
    (h : ∀ l ∈ pre, strStartsWith l "File:" = false) :
    parseLines (pre ++ rest) none = parseLines rest none := by
  induction pre with
  | nil => rfl
  | cons l ls ih =>
    have hl := h l (List.mem_cons_self l ls)
    simp only [List.cons_append, parseLines, hl, Bool.false_eq_true, if_false]
    exact ih (fun l2 h2 => h l2 (List.mem_cons_of_mem l h2))

/-- Claim C5: an oracle response with no marker line parses to zero
directives, the mutation run still reports success with an empty change
set, and any text before the first marker line is always discarded by
the parser. -/
theorem empty_parse_successful_run (fs : FS) (appPath resp : String)
    (oracle : String → Recommendation → Except String String) (bad : String → Bool)
    (h : ∀ l ∈ splitLines resp, strStartsWith l "File:" = false) :
    parseAIResponse resp = [] ∧
    (integrateApp fs appPath resp oracle bad).2.success = true ∧
    (integrateApp fs appPath resp oracle bad).2.changes = [] ∧
    (∀ pre rest, (∀ l ∈ pre, strStartsWith l "File:" = false) →
      parseLines (pre ++ rest) none = parseLines rest none) := by
  have hparse : parseAIResponse resp = [] := by
    have := parseLines_skip_nonmarker (splitLines resp) [] h
    simpa [parseAIResponse] using this
  refine ⟨hparse, rfl, ?_, fun pre rest hp => parseLines_skip_nonmarker pre rest hp⟩
  simp [integrateApp, hparse, applyAIChanges]

/-- Witness for C5 at a concrete malformed response. -/
theorem empty_parse_successful_run_witness :
    parseAIResponse "I cannot help with that\nplease retry" = [] ∧
    (integrateApp (FS.mk []) "app" "I cannot help with that\nplease retry"
      (fun _ _ => .ok "x") (fun _ => false)).2.success = true ∧
    (integrateApp (FS.mk []) "app" "I cannot help with that\nplease retry"
      (fun _ _ => .ok "x") (fun _ => false)).2.changes = [] ∧
    (∀ pre rest, (∀ l ∈ pre, strStartsWith l "File:" = false) →
      parseLines (pre ++ rest) none = parseLines rest none) := by
  exact empty_parse_successful_run (FS.mk []) "app"
    "I cannot help with that\nplease retry"
    (fun _ _ => .ok "x") (fun _ => false) (by decide)

/-! ## AppScanner: regex pattern scanners

The JS scanner classifies file content with global regular expressions.
Each regex of the source is given an executable matcher: a function that
attempts the pattern at one position, and a fuelled left-to-right scan
that, like a JS global regex, emits the leftmost match and resumes after
its end.  The alternations of each pattern are tried in the order the
regex lists them; the verb alternatives are mutually exclusive so no
backtracking between them can occur. -/

def isQuoteChar (c : Char) : Bool :=
  c == Char.ofNat 39 || c == '"' || c == Char.ofNat 96

/-- Case-insensitive literal match returning the remainder. -/
def ciPrefix : List Char → List Char → Option (List Char)
  | [], s => some s
  | _ :: _, [] => none
  | a :: as, b :: bs => if a.toLower == b.toLower then ciPrefix as bs else none

/-- The regex class backslash-s-plus: at least one whitespace character,
consumed greedily. -/
def spaces1 : List Char → Option (List Char)
  | [] => none
  | c :: cs => if isSpaceChar c then some (cs.dropWhile isSpaceChar) else none

/-- One-or-more word characters, as the regex group backslash-w-plus. -/
def takeWord1 (s : List Char) : Option (String × List Char) :=
  let w := s.takeWhile isWordChar
  if w.isEmpty then none else some (⟨w⟩, s.drop w.length)

def tryVerb : List String → List Char → Option (String × List Char)
  | [], _ => none
  | v :: vs, s =>
    match dropLit v.data s with
    | some r => some (v, r)
    | none => tryVerb vs s

/-- Case-insensitive verb alternation capturing the matched text in its
original case, as a JS match result does. -/
def tryVerbCI : List String → List Char → Option (String × List Char)
  | [], _ => none
  | v :: vs, s =>
    match ciPrefix v.data s with
    | some r => some (⟨s.take v.data.length⟩, r)
    | none => tryVerbCI vs s

def expressVerbs : List String := ["get", "post", "put", "delete", "patch"]

/-- A quoted string: any of the three JS quote characters, a nonempty
run of non-quote characters, and any closing quote character. -/
def tryQuoted (s : List Char) : Option (String × List Char) :=
  match s with
  | [] => none
  | c :: s1 =>
    if isQuoteChar c then
      let body := s1.takeWhile (fun d => !isQuoteChar d)
      match s1.drop body.length with
      | d :: s2 =>
        if isQuoteChar d then
          if body.isEmpty then none else some (⟨body⟩, s2)
        else none
      | [] => none
    else none

/-- The express route regex: app dot verb, optional spaces, an opening
parenthesis, optional spaces, and a quoted path. -/
def tryExpressAt (s : List Char) : Option ((String × String) × List Char) := do
  let s1 ← dropLit "app.".data s
  let (v, s2) ← tryVerb expressVerbs s1
  let s3 := s2.dropWhile isSpaceChar
  let s4 ← dropLit "(".data s3
  let s5 := s4.dropWhile isSpaceChar
  let (p, s6) ← tryQuoted s5
  some ((v, p), s6)

def scanExpressGo : Nat → List Char → List (String × String)
  | 0, _ => []
  | _ + 1, [] => []
  | n + 1, c :: cs =>
    match tryExpressAt (c :: cs) with
    | some (m, rest) => m :: scanExpressGo n rest
    | none => scanExpressGo n cs

def scanExpress (s : List Char) : List (String × String) := scanExpressGo s.length s

/-- Optional group of a word followed by whitespace, case-insensitive,
returning the continuations in regex backtracking order (group taken
first, then skipped). -/
def optWordCI (w : String) (s : List Char) : List (List Char) :=
  match ciPrefix w.data s with
  | some r =>
    match spaces1 r with
    | some r2 => [r2, s]
    | none => [s]
  | none => [s]

/-- The Next.js handler regex (case-insensitive): export, optional
default, optional async, function, and an HTTP verb name. -/
def tryNextAt (s : List Char) : Option (String × List Char) := do
  let s1 ← ciPrefix "export".data s
  let s2 ← spaces1 s1
  (optWordCI "default" s2).findSome? (fun sa =>
    (optWordCI "async" sa).findSome? (fun sb => do
      let sc ← ciPrefix "function".data sb
      let sd ← spaces1 sc
      tryVerbCI ["GET", "POST", "PUT", "DELETE", "PATCH"] sd))

def scanNextGo : Nat → List Char → List String
  | 0, _ => []
  | _ + 1, [] => []
  | n + 1, c :: cs =>
    match tryNextAt (c :: cs) with
    | some (v, rest) => v :: scanNextGo n rest
    | none => scanNextGo n cs

def scanNext (s : List Char) : List String := scanNextGo s.length s

/-- Remainder after the last occurrence of the /api/ marker, as the
greedy dot-star of the route-path rewrite regex selects it. -/
def lastApiSplit : List Char → Option (List Char)
  | [] => none
  | c :: cs =>
    match lastApiSplit cs with
    | some r => some r
    | none => dropLit "/api/".data (c :: cs)

def stripRouteSuffix (p : String) : String :=
  if strEndsWith p "/route.js" then ⟨p.data.take (p.data.length - 9)⟩
  else if strEndsWith p "/route.ts" then ⟨p.data.take (p.data.length - 9)⟩
  else p

def nextRoutePath (filePath : String) : String :=
  stripRouteSuffix
    (match lastApiSplit filePath.data with
     | some r => "/api/" ++ (⟨r⟩ : String)
     | none => filePath)

structure Route where
  method : String
  path : String
  file : String
  framework : String
deriving DecidableEq

def toUpperStr (s : String) : String := ⟨s.data.map Char.toUpper⟩

/-- extractRoutes: the express family contributes one route per regex
match with the verb uppercased; the Next.js family, when it matches at
all, contributes a single route built from the FIRST match only (the JS
code reads only element zero of its match list). -/
def extractRoutes (content filePath : String) : List Route :=
  let expressRoutes := (scanExpress content.data).map (fun m =>
    { method := toUpperStr m.1, path := m.2, file := filePath, framework := "express" })
  let nextRoutes : List Route :=
    match scanNext content.data with
    | [] => []
    | v :: _ =>
      [{ method := v, path := nextRoutePath filePath, file := filePath, framework := "next.js" }]
  expressRoutes ++ nextRoutes

/-! ## Model and component extraction -/

structure DbModel where
  name : String
  collection : Option String
  file : String
  type : String
deriving DecidableEq

structure Component where
  name : String
  file : String
  type : String
deriving DecidableEq

/-- The mongoose regex: const, a name, equals, mongoose.model, an
opening parenthesis and a quoted collection name. -/
def tryMongooseAt (s : List Char) : Option ((String × String) × List Char) := do
  let s1 ← dropLit "const".data s
  let s2 ← spaces1 s1
  let (name, s3) ← takeWord1 s2
  let s4 := s3.dropWhile isSpaceChar
  let s5 ← dropLit "=".data s4
  let s6 := s5.dropWhile isSpaceChar
  let s7 ← dropLit "mongoose.model".data s6
  let s8 := s7.dropWhile isSpaceChar
  let s9 ← dropLit "(".data s8
  let s10 := s9.dropWhile isSpaceChar
  let (coll, s11) ← tryQuoted s10
  some ((name, coll), s11)

def scanMongooseGo : Nat → List Char → List (String × String)
  | 0, _ => []
  | _ + 1, [] => []
  | n + 1, c :: cs =>
    match tryMongooseAt (c :: cs) with
    | some (m, rest) => m :: scanMongooseGo n rest
    | none => scanMongooseGo n cs

def scanMongoose (s : List Char) : List (String × String) := scanMongooseGo s.length s

/-- The prisma regex: model, a name, optional spaces and an opening
brace (written by code point to keep the source plain). -/
def tryPrismaAt (s : List Char) : Option (String × List Char) := do
  let s1 ← dropLit "model".data s
  let s2 ← spaces1 s1
  let (name, s3) ← takeWord1 s2
  let s4 := s3.dropWhile isSpaceChar
  let s5 ← dropLit [Char.ofNat 123] s4
  some (name, s5)

def scanPrismaGo : Nat → List Char → List String
  | 0, _ => []
  | _ + 1, [] => []
  | n + 1, c :: cs =>
    match tryPrismaAt (c :: cs) with
    | some (m, rest) => m :: scanPrismaGo n rest
    | none => scanPrismaGo n cs

def scanPrisma (s : List Char) : List String := scanPrismaGo s.length s

def extractModels (content filePath : String) : List DbModel :=
  (scanMongoose content.data).map (fun m =>
    { name := m.1, collection := some m.2, file := filePath, type := "mongoose" }) ++
  (scanPrisma content.data).map (fun n =>
    { name := n, collection := none, file := filePath, type := "prisma" })

/-- Optional group of a word followed by whitespace, case-sensitive. -/
def optWordCS (w : String) (s : List Char) : List (List Char) :=
  match dropLit w.data s with
  | some r =>
    match spaces1 r with
    | some r2 => [r2, s]
    | none => [s]
  | none => [s]

/-- The component regex: optional export, optional default, function or
const, and a captured identifier. -/
def tryComponentAt (s : List Char) : Option (String × List Char) :=
  (optWordCS "export" s).findSome? (fun sa =>
    (optWordCS "default" sa).findSome? (fun sb => do
      let sc ← (match dropLit "function".data sb with
                | some r => some r
                | none => dropLit "const".data sb)
      let sd ← spaces1 sc
      takeWord1 sd))

def scanComponentGo : Nat → List Char → List String
  | 0, _ => []
  | _ + 1, [] => []
  | n + 1, c :: cs =>
    match tryComponentAt (c :: cs) with
    | some (m, rest) => m :: scanComponentGo n rest
    | none => scanComponentGo n cs

def scanComponentNames (s : List Char) : List String := scanComponentGo s.length s

/-- JS upper-case test on the first character: the character equals its
own upper-cased form (ASCII; digits and underscore pass). -/
def firstUpperStable (s : String) : Bool :=
  match s.data with
  | [] => false
  | c :: _ => c.toUpper == c

def extractComponents (content filePath : String) : List Component :=
  ((scanComponentNames content.data).filter firstUpperStable).map (fun n =>
    { name := n, file := filePath, type := "react" })

/-! ## Scanner data model

The source tree seen by the scanner: the dependency manifest (absent,
unparsable, or parsed), the set of existing paths relative to the app
root used by the framework-marker existence checks, and the text files
with their content or the read error the filesystem raises for them.
Glob matching over the pattern shapes the scanner uses (a directory
name somewhere above the file, an optional required substring of the
file name, and an extension) is segment-based; the scanner patterns all
allow the star-star groups to be empty. -/

structure PackageJson where
  name : Option String
  description : Option String
  version : Option String
  dependencies : List (String × String)
  devDependencies : List (String × String)
deriving DecidableEq

deriving instance DecidableEq for Except

structure Tree where
  pkg : Option (Except String PackageJson)
  paths : List String
  files : List (String × Except String String)
deriving DecidableEq

def Tree.hasPath (t : Tree) (p : String) : Bool :=
  if p = "package.json" then t.pkg.isSome else t.paths.contains p

def readTreeFile (t : Tree) (p : String) : Except String String :=
  match t.files.lookup p with
  | some r => r
  | none => .error ("ENOENT: " ++ p)

structure IntegrationPoint where
  type : String
  location : String
  description : String
deriving DecidableEq

structure AppInfo where
  name : String
  path : String
  type : String
  framework : String
  description : String
  version : String
  apiRoutes : List Route
  models : List DbModel
  components : List Component
  hasAuth : Bool
  hasDatabase : Bool
  dependencies : List (String × String)
  integrationPoints : List IntegrationPoint
deriving DecidableEq

def basename (p : String) : String :=
  ⟨((splitCharAux '/' p.data).getLast?.getD [])⟩

def initialAppInfo (appPath : String) : AppInfo :=
  { name := basename appPath, path := appPath, type := "unknown", framework := "unknown",
    description := "", version := "1.0.0", apiRoutes := [], models := [], components := [],
    hasAuth := false, hasDatabase := false, dependencies := [], integrationPoints := [] }

/-- JS truthiness of a possibly absent string field. -/
def truthyS : Option String → Bool
  | none => false
  | some s => !(s == "")

def strOr (o : Option String) (d : String) : String :=
  match o with
  | some s => if s == "" then d else s
  | none => d

/-- JS object spread of two maps where the second wins on key collision,
modelled up to lookup: the entries of the winner are consulted first. -/
def spread2 (a b : List (String × String)) : List (String × String) := b ++ a

/-! ## analyzePackageJson -/

def depFrameworkType (pj : PackageJson) (info : AppInfo) : AppInfo :=
  if truthyS (lookupA pj.dependencies "next") then
    { info with type := "web-app", framework := "next.js" }
  else if truthyS (lookupA pj.dependencies "react") then
    { info with type := "web-app", framework := "react" }
  else if truthyS (lookupA pj.dependencies "express") then
    { info with type := "api-server", framework := "express" }
  else if truthyS (lookupA pj.dependencies "vue") then
    { info with type := "web-app", framework := "vue" }
  else info

def analyzePackageJson (t : Tree) (info : AppInfo) : Except String AppInfo :=
  match t.pkg with
  | none => .ok info
  | some (.error e) => .error e
  | some (.ok pj) =>
    .ok (depFrameworkType pj
      { info with
        name := strOr pj.name info.name,
        description := strOr pj.description "",
        version := strOr pj.version "1.0.0",
        dependencies := spread2 pj.dependencies pj.devDependencies })

/-- The framework the dependency manifest alone derives (the value of
the framework field right after analyzePackageJson on a fresh scan). -/
def depFramework (t : Tree) : String :=
  match t.pkg with
  | some (.ok pj) =>
    if truthyS (lookupA pj.dependencies "next") then "next.js"
    else if truthyS (lookupA pj.dependencies "react") then "react"
    else if truthyS (lookupA pj.dependencies "express") then "express"
    else if truthyS (lookupA pj.dependencies "vue") then "vue"
    else "unknown"
  | _ => "unknown"

/-! ## detectFramework -/

def supportedFrameworks : List (String × List String) :=
  [("next.js", ["next.config.js", "next.config.ts", "pages/", "app/"]),
   ("react", ["src/", "public/", "package.json"]),
   ("express", ["server.js", "app.js", "index.js", "routes/"]),
   ("vue", ["vue.config.js", "src/", "components/"]),
   ("angular", ["angular.json", "src/", "package.json"]),
   ("svelte", ["svelte.config.js", "src/", "package.json"])]

def frameworkMatches (t : Tree) (inds : List String) : Nat :=
  (inds.filter (fun i => t.hasPath i)).length

/-- The JS test: matches at least indicators.length divided by two
(real division), which for integer match counts is two times matches at
least the indicator count. -/
def reachesThreshold (t : Tree) (e : String × List String) : Bool :=
  e.2.length ≤ 2 * frameworkMatches t e.2

def detectFrameworkGo (t : Tree) : List (String × List String) → String → String
  | [], fw => fw
  | e :: rest, fw => if reachesThreshold t e then e.1 else detectFrameworkGo t rest fw

def detectFramework (t : Tree) (info : AppInfo) : AppInfo :=
  { info with framework := detectFrameworkGo t supportedFrameworks info.framework }

/-! ## Glob file selection -/

def segmentsOf (p : String) : List String := (splitCharAux '/' p.data).map (fun l => ⟨l⟩)

/-- Pattern shape star-star slash dir slash star-star slash star sub
star dot ext; an empty sub imposes no substring constraint. -/
def globDirSubExt (dirName sub ext p : String) : Bool :=
  (segmentsOf p).dropLast.contains dirName &&
  containsStr (((segmentsOf p).getLast?.getD "")) sub &&
  strEndsWith (((segmentsOf p).getLast?.getD "")) ext

def filesMatching (t : Tree) (dirName ext : String) : List String :=
  (t.files.map (fun f => f.1)).filter (fun p => globDirSubExt dirName "" ext p)

def routePatterns : List (String × String) :=
  [("api", ".js"), ("api", ".ts"), ("routes", ".js"), ("routes", ".ts"),
   ("server", ".js"), ("server", ".ts")]

def routeFiles (t : Tree) : List String :=
  routePatterns.foldr (fun pr acc => filesMatching t pr.1 pr.2 ++ acc) []

def modelPatterns : List (String × String) :=
  [("models", ".js"), ("models", ".ts"), ("schemas", ".js"), ("schemas", ".ts")]

def modelFiles (t : Tree) : List String :=
  modelPatterns.foldr (fun pr acc => filesMatching t pr.1 pr.2 ++ acc) []

def componentPatterns : List (String × String) :=
  [("components", ".js"), ("components", ".jsx"), ("components", ".ts"),
   ("components", ".tsx"), ("src", ".jsx"), ("src", ".tsx")]

def componentFiles (t : Tree) : List String :=
  componentPatterns.foldr (fun pr acc => filesMatching t pr.1 pr.2 ++ acc) []

/-! ## Per-file scan loops

Each scan step iterates the files its glob patterns select, reads each
file with no per-file exception handler, and extends the accumulated
AppInfo; a failing read therefore aborts the step with that error. -/

def scanFilesFold (t : Tree) (upd : AppInfo → String → String → AppInfo) :
    List String → AppInfo → Except String AppInfo
  | [], info => .ok info
  | f :: rest, info =>
    match readTreeFile t f with
    | .error e => .error e
    | .ok content => scanFilesFold t upd rest (upd info f content)

def scanApiRoutes (t : Tree) (info : AppInfo) : Except String AppInfo :=
  scanFilesFold t
    (fun acc f content => { acc with apiRoutes := acc.apiRoutes ++ extractRoutes content f })
    (routeFiles t) info

def scanDatabaseModels (t : Tree) (info : AppInfo) : Except String AppInfo :=
  scanFilesFold t
    (fun acc f content => { acc with models := acc.models ++ extractModels content f })
    (modelFiles t) info

def scanComponents (t : Tree) (info : AppInfo) : Except String AppInfo :=
  scanFilesFold t
    (fun acc f content => { acc with components := acc.components ++ extractComponents content f })
    (componentFiles t) info

/-! ## Auth and database checks -/

def authIndicators : List String :=
  ["iron-session", "passport", "auth0", "firebase-auth", "next-auth", "jwt", "bcrypt", "crypto"]

def authFilePatterns : List (String × String × String) :=
  [("auth", "", ".js"), ("auth", "", ".ts"), ("middleware", "", ".js"),
   ("middleware", "", ".ts"), ("config", "auth", ".js"), ("config", "auth", ".ts")]

def authFileHit (t : Tree) : Bool :=
  authFilePatterns.any (fun pat =>
    (t.files.map (fun f => f.1)).any (fun p => globDirSubExt pat.1 pat.2.1 pat.2.2 p))

def checkAuthentication (t : Tree) (info : AppInfo) : Except String AppInfo :=
  match t.pkg with
  | none => .ok { info with hasAuth := info.hasAuth || authFileHit t }
  | some (.error e) => .error e
  | some (.ok pj) =>
    .ok { info with hasAuth := info.hasAuth
      || authIndicators.any (fun i =>
           truthyS (lookupA (spread2 pj.dependencies pj.devDependencies) i))
      || authFileHit t }

def dbIndicators : List String :=
  ["mongoose", "prisma", "sequelize", "typeorm", "mongodb", "mysql", "postgresql", "sqlite"]

def checkDatabaseIntegration (t : Tree) (info : AppInfo) : Except String AppInfo :=
  match t.pkg with
  | none => .ok info
  | some (.error e) => .error e
  | some (.ok pj) =>
    .ok { info with hasDatabase := info.hasDatabase
      || dbIndicators.any (fun i =>
           truthyS (lookupA (spread2 pj.dependencies pj.devDependencies) i)) }

/-- analyzeStructure records the nested directory map on a field the
model does not carry; it reads directories only and changes no field the
claims mention. -/
def analyzeStructure (info : AppInfo) : AppInfo := info

/-! ## Integration points -/

def protectedPaths : List String := ["/api/", "/admin/", "/dashboard/", "/profile/"]

def needsAuth (routePath : String) : Bool :=
  protectedPaths.any (fun pp => containsStr routePath pp)

def brandingComponents : List String := ["Header", "Navbar", "Navigation", "Layout", "App"]

def needsBranding (componentName : String) : Bool :=
  brandingComponents.any (fun b => containsStr componentName b)

def identifyIntegrationPoints (info : AppInfo) : AppInfo :=
  let routePts := (info.apiRoutes.filter (fun r => needsAuth r.path)).map (fun r =>
    ({ type := "auth", location := r.file,
       description := "Add Weam authentication to " ++ r.method ++ " " ++ r.path } : IntegrationPoint))
  let modelPts := info.models.map (fun m =>
    ({ type := "database", location := m.file,
       description := "Add user/company fields to " ++ m.name ++ " model" } : IntegrationPoint))
  let compPts := (info.components.filter (fun c => needsBranding c.name)).map (fun c =>
    ({ type := "branding", location := c.file,
       description := "Apply Weam branding to " ++ c.name ++ " component" } : IntegrationPoint))
  { info with integrationPoints := routePts ++ modelPts ++ compPts }

/-! ## scanApp -/

def scanAppE (appPath : String) (t : Tree) : Except String AppInfo :=
  match analyzePackageJson t (initialAppInfo appPath) with
  | .error e => .error e
  | .ok i1 =>
    match scanApiRoutes t (detectFramework t i1) with
    | .error e => .error e
    | .ok i3 =>
      match scanDatabaseModels t i3 with
      | .error e => .error e
      | .ok i4 =>
        match scanComponents t i4 with
        | .error e => .error e
        | .ok i5 =>
          match checkAuthentication t i5 with
          | .error e => .error e
          | .ok i6 =>
            match checkDatabaseIntegration t i6 with
            | .error e => .error e
            | .ok i7 => .ok (identifyIntegrationPoints (analyzeStructure i7))

def scanApp (appPath : String) (t : Tree) : Except String AppInfo :=
  match scanAppE appPath t with
  | .ok i => .ok i
  | .error e => .error ("Failed to scan app: " ++ e)

/-! ## C3 : route extraction match counting -/

/-- Claim C3 counterexample: a file content with two matches of the
exported-handler family yields a single route, not one route per match;
the code builds one route from the first match only. -/
theorem route_extraction_not_per_match :
    (scanNext "export async function GET(req)\nexport async function POST(req)".data).length
      = 2 ∧
    (extractRoutes "export async function GET(req)\nexport async function POST(req)"
      "app/api/users/route.ts").length = 1 := by
  constructor <;> rfl

/-- Claim C3 (amended): the two families are applied independently and
their results concatenated; the express family contributes exactly one
route per match, while the exported-handler family contributes at most
one route per file, present exactly when that family matches at least
once. -/
theorem extractRoutes_per_family_counts (content filePath : String) :
    (extractRoutes content filePath).length
      = (scanExpress content.data).length + min (scanNext content.data).length 1 ∧
    (∀ m ∈ scanExpress content.data,
      ({ method := toUpperStr m.1, path := m.2, file := filePath,
         framework := "express" } : Route) ∈ extractRoutes content filePath) := by
  constructor
  · unfold extractRoutes
    cases h : scanNext content.data with
    | nil => simp
    | cons v vs =>
      simp only [List.length_append, List.length_map, List.length_cons, List.length_nil]
      omega
  · intro m hm
    unfold extractRoutes
    exact List.mem_append_left _ (List.mem_map_of_mem _ hm)

/-- Witness for the amended C3 theorem: an express match in a concrete
file contributes its own route. -/
theorem extractRoutes_per_family_counts_witness :
    ({ method := toUpperStr "get", path := "/api/users", file := "routes/u.js",
       framework := "express" } : Route)
      ∈ extractRoutes "app.get(\"/api/users\", handler)" "routes/u.js" := by
  exact (extractRoutes_per_family_counts "app.get(\"/api/users\", handler)" "routes/u.js").2
    ("get", "/api/users") (by decide)

/-! ## C2 : a failing per-file read aborts the scan -/

def isOkE {ε α : Type} : Except ε α → Bool
  | .ok _ => true
  | .error _ => false

theorem scanFilesFold_fails (t : Tree) (upd : AppInfo → String → String → AppInfo) :
    ∀ (files : List String), (∃ f ∈ files, isOkE (readTreeFile t f) = false) →
      ∀ info, isOkE (scanFilesFold t upd files info) = false := by
  intro files
  induction files with
  | nil => rintro ⟨f, hf, _⟩; exact absurd hf (List.not_mem_nil f)
  | cons g gs ih =>
    rintro ⟨f, hf, herr⟩ info
    cases hr : readTreeFile t g with
    | error e => simp [scanFilesFold, hr, isOkE]
    | ok c =>
      simp only [scanFilesFold, hr]
      rcases List.mem_cons.mp hf with hfg | hmem
      · subst hfg; rw [hr] at herr; simp [isOkE] at herr
      · exact ih ⟨f, hmem, herr⟩ _

/-- Claim C2 counterexample: a tree whose single candidate route file is
unreadable.  The scanner has no per-file exception handler, so the scan
does not skip the file with a warning but fails as a whole, returning
the wrapped scan-level error instead of an AppModel. -/
theorem scan_read_failure_counterexample :
    isOkE (readTreeFile (Tree.mk none [] [("api/users.js", .error "EIO: api/users.js")])
      "api/users.js") = false ∧
    scanApp "demo" (Tree.mk none [] [("api/users.js", .error "EIO: api/users.js")])
      = .error "Failed to scan app: EIO: api/users.js" := by
  constructor <;> rfl

/-- Claim C2 (amended): when the manifest itself is readable but some
file selected by the route glob patterns cannot be read, the read error
propagates out of the extraction loop and scanApp rethrows it as a
scan-level failure; no AppModel is returned. -/
theorem scan_read_failure_aborts (appPath : String) (t : Tree)
    (hpkg : ∀ e, t.pkg ≠ some (.error e))
    (hfail : ∃ f ∈ routeFiles t, isOkE (readTreeFile t f) = false) :
    ∃ msg, scanApp appPath t = .error msg := by
  have h1 : ∃ i1, analyzePackageJson t (initialAppInfo appPath) = .ok i1 := by
    unfold analyzePackageJson
    cases hp : t.pkg with
    | none => exact ⟨_, rfl⟩
    | some x =>
      cases x with
      | error e => exact absurd hp (hpkg e)
      | ok pj => exact ⟨_, rfl⟩
  obtain ⟨i1, h1⟩ := h1
  have h3 : isOkE (scanApiRoutes t (detectFramework t i1)) = false :=
    scanFilesFold_fails t
      (fun acc f content => { acc with apiRoutes := acc.apiRoutes ++ extractRoutes content f })
      (routeFiles t) hfail (detectFramework t i1)
  cases hr : scanApiRoutes t (detectFramework t i1) with
  | ok i3 => rw [hr] at h3; simp [isOkE] at h3
  | error e =>
    refine ⟨"Failed to scan app: " ++ e, ?_⟩
    simp [scanApp, scanAppE, h1, hr]

/-- Witness for the amended C2 theorem at a concrete tree. -/
theorem scan_read_failure_aborts_witness :
    ∃ msg, scanApp "demo" (Tree.mk none [] [("api/users.js", .error "EIO: api/users.js")])
      = .error msg := by
  exact scan_read_failure_aborts "demo"
    (Tree.mk none [] [("api/users.js", .error "EIO: api/users.js")])
    (fun e h => Option.noConfusion h)
    ⟨"api/users.js", by decide, by decide⟩

/-! ## C8 : evidence-counted framework detection, first match wins -/

theorem detectFrameworkGo_append (t : Tree) (fw0 : String)
    (pre : List (String × List String)) (e : String × List String)
    (post : List (String × List String))
    (hpre : ∀ x ∈ pre, reachesThreshold t x = false)
    (he : reachesThreshold t e = true) :
    detectFrameworkGo t (pre ++ e :: post) fw0 = e.1 := by
  induction pre with
  | nil => simp [detectFrameworkGo, he]
  | cons x xs ih =>
    have hx := hpre x (List.mem_cons_self x xs)
    simp only [List.cons_append, detectFrameworkGo, hx, Bool.false_eq_true, if_false]
    exact ih (fun y hy => hpre y (List.mem_cons_of_mem x hy))

theorem detectFrameworkGo_nomatch (t : Tree) (fw0 : String)
    (L : List (String × List String)) (h : ∀ x ∈ L, reachesThreshold t x = false) :
    detectFrameworkGo t L fw0 = fw0 := by
  induction L with
  | nil => rfl
  | cons x xs ih =>
    simp only [detectFrameworkGo, h x (List.mem_cons_self x xs), Bool.false_eq_true, if_false]
    exact ih (fun y hy => h y (List.mem_cons_of_mem x hy))

/-- Claim C8: framework detection counts, for each candidate of the
fixed table in declaration order, how many of its marker paths exist
(reachesThreshold holds when the matched-marker count is at least half
the marker count), selects the first candidate reaching its threshold
whatever candidates follow it, and leaves the framework unchanged when
no candidate reaches its threshold. -/
theorem framework_detection_first_match (t : Tree) (info : AppInfo) :
    (∀ pre e post, supportedFrameworks = pre ++ e :: post →
       (∀ x ∈ pre, reachesThreshold t x = false) → reachesThreshold t e = true →
       (detectFramework t info).framework = e.1) ∧
    ((∀ x ∈ supportedFrameworks, reachesThreshold t x = false) →
       (detectFramework t info).framework = info.framework) := by
  constructor
  · intro pre e post heq hpre he
    show detectFrameworkGo t supportedFrameworks info.framework = e.1
    rw [heq]
    exact detectFrameworkGo_append t info.framework pre e post hpre he
  · intro hnone
    show detectFrameworkGo t supportedFrameworks info.framework = info.framework
    exact detectFrameworkGo_nomatch t info.framework supportedFrameworks hnone

/-- Witness for C8: a tree with src, public and a manifest reaches the
react threshold while the next.js candidate before it does not, so the
detector selects react. -/
theorem framework_detection_first_match_witness :
    (detectFramework
      (Tree.mk (some (.ok (PackageJson.mk (some "demo") none (some "1.0.0") [] [])))
        ["src/", "public/"] [])
      (initialAppInfo "apps/demo")).framework = "react" := by
  exact (framework_detection_first_match
      (Tree.mk (some (.ok (PackageJson.mk (some "demo") none (some "1.0.0") [] [])))
        ["src/", "public/"] [])
      (initialAppInfo "apps/demo")).1
    [("next.js", ["next.config.js", "next.config.ts", "pages/", "app/"])]
    ("react", ["src/", "public/", "package.json"])
    [("express", ["server.js", "app.js", "index.js", "routes/"]),
     ("vue", ["vue.config.js", "src/", "components/"]),
     ("angular", ["angular.json", "src/", "package.json"]),
     ("svelte", ["svelte.config.js", "src/", "package.json"])]
    rfl (by decide) (by decide)

/-! ## C10 : marker detection overrides the dependency-derived framework -/

theorem scanFilesFold_framework (t : Tree) (upd : AppInfo → String → String → AppInfo)
    (hupd : ∀ a f c, (upd a f c).framework = a.framework) :
    ∀ (files : List String) (info i2 : AppInfo),
      scanFilesFold t upd files info = .ok i2 → i2.framework = info.framework := by
  intro files
  induction files with
  | nil =>
    intro info i2 h
    simp only [scanFilesFold] at h
    cases h
    rfl
  | cons g gs ih =>
    intro info i2 h
    cases hr : readTreeFile t g with
    | error e =>
      simp only [scanFilesFold, hr] at h
      exact Except.noConfusion h
    | ok c =>
      simp only [scanFilesFold, hr] at h
      exact (ih _ _ h).trans (hupd info g c)

theorem checkAuthentication_framework (t : Tree) (info i2 : AppInfo)
    (h : checkAuthentication t info = .ok i2) : i2.framework = info.framework := by
  unfold checkAuthentication at h
  cases hp : t.pkg with
  | none => rw [hp] at h; cases h; rfl
  | some x =>
    cases x with
    | error e => rw [hp] at h; exact Except.noConfusion h
    | ok pj => rw [hp] at h; cases h; rfl

theorem checkDatabaseIntegration_framework (t : Tree) (info i2 : AppInfo)
    (h : checkDatabaseIntegration t info = .ok i2) : i2.framework = info.framework := by
  unfold checkDatabaseIntegration at h
  cases hp : t.pkg with
  | none => rw [hp] at h; cases h; rfl
  | some x =>
    cases x with
    | error e => rw [hp] at h; exact Except.noConfusion h
    | ok pj => rw [hp] at h; cases h; rfl

theorem analyzePackageJson_framework (t : Tree) (appPath : String) (i1 : AppInfo)
    (h : analyzePackageJson t (initialAppInfo appPath) = .ok i1) :
    i1.framework = depFramework t := by
  unfold analyzePackageJson at h
  cases hp : t.pkg with
  | none =>
    rw [hp] at h; cases h
    simp [depFramework, hp, initialAppInfo]
  | some x =>
    cases x with
    | error e => rw [hp] at h; exact Except.noConfusion h
    | ok pj =>
      rw [hp] at h; cases h
      by_cases h1 : truthyS (lookupA pj.dependencies "next") = true
      · simp [depFrameworkType, depFramework, hp, h1]
      · by_cases h2 : truthyS (lookupA pj.dependencies "react") = true
        · simp [depFrameworkType, depFramework, hp, h1, h2]
        · by_cases h3 : truthyS (lookupA pj.dependencies "express") = true
          · simp [depFrameworkType, depFramework, hp, h1, h2, h3]
          · by_cases h4 : truthyS (lookupA pj.dependencies "vue") = true
            · simp [depFrameworkType, depFramework, hp, h1, h2, h3, h4]
            · simp [depFrameworkType, depFramework, hp, h1, h2, h3, h4, initialAppInfo]

/-- Claim C10: whenever scanApp succeeds, the returned framework equals
the first table candidate reaching its marker threshold, overriding the
dependency-derived classification; when no candidate reaches its
threshold the dependency-derived classification survives. -/
theorem scan_framework_override (appPath : String) (t : Tree) (info : AppInfo)
    (h : scanApp appPath t = .ok info) :
    (∀ pre e post, supportedFrameworks = pre ++ e :: post →
       (∀ x ∈ pre, reachesThreshold t x = false) → reachesThreshold t e = true →
       info.framework = e.1) ∧
    ((∀ x ∈ supportedFrameworks, reachesThreshold t x = false) →
       info.framework = depFramework t) := by
  have hE : scanAppE appPath t = .ok info := by
    unfold scanApp at h
    cases he : scanAppE appPath t with
    | ok i => rw [he] at h; cases h; rfl
    | error e => rw [he] at h; exact Except.noConfusion h
  unfold scanAppE at hE
  split at hE
  · exact Except.noConfusion hE
  rename_i i1 h1
  split at hE
  · exact Except.noConfusion hE
  rename_i i3 h3
  split at hE
  · exact Except.noConfusion hE
  rename_i i4 h4
  split at hE
  · exact Except.noConfusion hE
  rename_i i5 h5
  split at hE
  · exact Except.noConfusion hE
  rename_i i6 h6
  split at hE
  · exact Except.noConfusion hE
  rename_i i7 h7
  cases hE
  have e7 : i7.framework = i6.framework := checkDatabaseIntegration_framework t i6 i7 h7
  have e6 : i6.framework = i5.framework := checkAuthentication_framework t i5 i6 h6
  have e5 : i5.framework = i4.framework :=
    scanFilesFold_framework t
      (fun acc f content => { acc with components := acc.components ++ extractComponents content f })
      (fun _ _ _ => rfl) (componentFiles t) i4 i5 h5
  have e4 : i4.framework = i3.framework :=
    scanFilesFold_framework t
      (fun acc f content => { acc with models := acc.models ++ extractModels content f })
      (fun _ _ _ => rfl) (modelFiles t) i3 i4 h4
  have e3 : i3.framework = (detectFramework t i1).framework :=
    scanFilesFold_framework t
      (fun acc f content => { acc with apiRoutes := acc.apiRoutes ++ extractRoutes content f })
      (fun _ _ _ => rfl) (routeFiles t) (detectFramework t i1) i3 h3
  have e1 : i1.framework = depFramework t := analyzePackageJson_framework t appPath i1 h1
  have hfw : (identifyIntegrationPoints (analyzeStructure i7)).framework
      = detectFrameworkGo t supportedFrameworks (depFramework t) := by
    show i7.framework = detectFrameworkGo t supportedFrameworks (depFramework t)
    rw [e7, e6, e5, e4, e3]
    show detectFrameworkGo t supportedFrameworks i1.framework
      = detectFrameworkGo t supportedFrameworks (depFramework t)
    rw [e1]
  constructor
  · intro pre e post heq hpre he
    rw [hfw, heq]
    exact detectFrameworkGo_append t (depFramework t) pre e post hpre he
  · intro hnone
    rw [hfw]
    exact detectFrameworkGo_nomatch t (depFramework t) supportedFrameworks hnone

/-- The concrete express-versus-react tree of the C10 claim. -/
def c10tree : Tree :=
  Tree.mk
    (some (.ok (PackageJson.mk (some "demo") none (some "1.0.0")
      [("express", "^4.18.2")] [])))
    ["src/", "public/"] []

/-- The AppModel the scanner returns on that tree. -/
def c10info : AppInfo :=
  match scanApp "apps/demo" c10tree with
  | .ok i => i
  | .error _ => initialAppInfo "apps/demo"

/-- Witness for C10: a tree declaring the express dependency that also
contains src, public and a manifest is classified react, not express
(and its dependency-derived classification was express). -/
theorem scan_framework_override_witness :
    depFramework c10tree = "express" ∧
    ∃ i, scanApp "apps/demo" c10tree = .ok i ∧ i.framework = "react" := by
  have h : scanApp "apps/demo" c10tree = .ok c10info := by decide
  refine ⟨by decide, c10info, h, ?_⟩
  exact (scan_framework_override "apps/demo" c10tree c10info h).1
    [("next.js", ["next.config.js", "next.config.ts", "pages/", "app/"])]
    ("react", ["src/", "public/", "package.json"])
    [("express", ["server.js", "app.js", "index.js", "routes/"]),
     ("vue", ["vue.config.js", "src/", "components/"]),
     ("angular", ["angular.json", "src/", "package.json"]),
     ("svelte", ["svelte.config.js", "src/", "package.json"])]
    rfl (by decide) (by decide)

/-! ## CodeGenerator data model

The generator reads EJS templates from its template directory and
renders them with a context object; the literal template texts are
external assets outside the scanned sources, so rendering is a function
parameter keyed by a context carrying exactly the fields each
ejs.render call passes.  The output world is a filesystem holding text
files and, for the manifest patch, structured JSON payloads; a manifest
stored as structured data parses, raw text does not (the JSON grammar
itself is not modelled). -/

/-- Scripts live on the manifest next to the dependency maps. -/
structure PackageManifest where
  name : Option String
  description : Option String
  version : Option String
  dependencies : List (String × String)
  devDependencies : List (String × String)
  scripts : List (String × String)
deriving DecidableEq

inductive FileData where
  | text (s : String)
  | json (p : PackageManifest)
deriving DecidableEq

def lookupG {α : Type} : List (String × α) → String → Option α
  | [], _ => none
  | kv :: rest, q => if q = kv.1 then some kv.2 else lookupG rest q

def removeG {α : Type} : List (String × α) → String → List (String × α)
  | [], _ => []
  | kv :: rest, p => if kv.1 = p then removeG rest p else kv :: removeG rest p

structure GenFS where
  files : List (String × FileData)
deriving DecidableEq

def GenFS.read (fs : GenFS) (p : String) : Option FileData := lookupG fs.files p

def GenFS.write (fs : GenFS) (p : String) (d : FileData) : GenFS :=
  ⟨(p, d) :: removeG fs.files p⟩

structure Preferences where
  appName : String
  description : String
  category : String
  addAuth : Bool
  addDatabase : Bool
  addBranding : Bool
deriving DecidableEq

structure GeneratedFile where
  type : String
  path : String
  description : String
deriving DecidableEq

/-- One rendering context per ejs.render call site, carrying exactly
the fields the source passes to that template. -/
inductive TemplateCtx where
  | session (appName framework : String)
  | database (appName : String) (models : List DbModel)
  | modelUpdate (modelName modelType appName : String)
  | logo (appName : String)
  | nav (appName category : String)
  | styles (appName : String)
  | proxy (appName appPath : String) (apiRoutes : List Route) (port : Nat)
  | page (appName description category : String)
  | envCfg (appName : String) (port : Nat) (hasAuth hasDatabase : Bool)
  | doc (appName description category : String) (info : AppInfo) (prefs : Preferences)

def outputDir : String := "./weam-integration"

def defaultPorts : List (String × Nat) :=
  [("next.js", 3000), ("react", 3000), ("express", 3001), ("vue", 3000), ("angular", 4200)]

def getAppPort (info : AppInfo) : Nat := (lookupG defaultPorts info.framework).getD 3000

def generateSessionMiddleware (render : TemplateCtx → String) (fs : GenFS) (info : AppInfo) :
    GenFS × GeneratedFile :=
  let filePath := pathJoin outputDir "middleware/weamSession.js"
  (fs.write filePath (.text (render (.session info.name info.framework))),
   { type := "middleware", path := filePath,
     description := "Weam session middleware for authentication" })

def generateDatabaseIntegration (render : TemplateCtx → String) (fs : GenFS) (info : AppInfo) :
    GenFS × List GeneratedFile :=
  let dbPath := pathJoin outputDir "lib/db.js"
  info.models.foldl
    (fun (acc : GenFS × List GeneratedFile) m =>
      let mPath := pathJoin outputDir ("models/" ++ m.name ++ ".js")
      (acc.1.write mPath (.text (render (.modelUpdate m.name m.type info.name))),
       acc.2 ++ [{ type := "model", path := mPath,
                   description := "Updated " ++ m.name ++ " model with Weam user/company fields" }]))
    (fs.write dbPath (.text (render (.database info.name info.models))),
     [{ type := "database", path := dbPath,
        description := "Database connection with Weam integration" }])

def generateBranding (render : TemplateCtx → String) (fs : GenFS) (prefs : Preferences) :
    GenFS × List GeneratedFile :=
  let logoPath := pathJoin outputDir "components/WeamLogo.jsx"
  let navPath := pathJoin outputDir "components/WeamNavigation.jsx"
  let cssPath := pathJoin outputDir "styles/weam.css"
  (((fs.write logoPath (.text (render (.logo prefs.appName)))).write navPath
      (.text (render (.nav prefs.appName prefs.category)))).write cssPath
      (.text (render (.styles prefs.appName))),
   [{ type := "component", path := logoPath, description := "Weam logo component" },
    { type := "component", path := navPath,
      description := "Weam navigation component with branding" },
    { type := "styles", path := cssPath, description := "Weam brand styling" }])

def generateProxyRoutes (render : TemplateCtx → String) (fs : GenFS) (info : AppInfo)
    (prefs : Preferences) : GenFS × List GeneratedFile :=
  let proxyPath := pathJoin outputDir "weam-proxy/[...path]/route.ts"
  let pagePath := pathJoin outputDir "weam-page/page.tsx"
  (((fs.write proxyPath
      (.text (render (.proxy prefs.appName info.path info.apiRoutes (getAppPort info))))).write
     pagePath (.text (render (.page prefs.appName prefs.description prefs.category)))),
   [{ type := "proxy", path := proxyPath, description := "Weam proxy route for API forwarding" },
    { type := "page", path := pagePath, description := "Weam page component for Supersolutions" }])

def generateEnvironmentConfig (render : TemplateCtx → String) (fs : GenFS) (info : AppInfo)
    (prefs : Preferences) : GenFS × GeneratedFile :=
  let filePath := pathJoin outputDir ".env.weam"
  (fs.write filePath
    (.text (render (.envCfg prefs.appName (getAppPort info) prefs.addAuth prefs.addDatabase))),
   { type := "config", path := filePath,
     description := "Environment configuration for Weam integration" })

def generateDocumentation (render : TemplateCtx → String) (fs : GenFS) (info : AppInfo)
    (prefs : Preferences) : GenFS × GeneratedFile :=
  let filePath := pathJoin outputDir "WEAM_INTEGRATION.md"
  (fs.write filePath
    (.text (render (.doc prefs.appName prefs.description prefs.category info prefs))),
   { type := "documentation", path := filePath,
     description := "Integration documentation and setup guide" })

def weamDeps : List (String × String) :=
  [("iron-session", "^6.3.1"), ("cors", "^2.8.5"), ("axios", "^1.6.0")]

def weamScripts : List (String × String) :=
  [("weam:integrate", "node weam-integration/setup.js"),
   ("weam:test", "node weam-integration/test.js")]

def emptyManifest : PackageManifest :=
  { name := none, description := none, version := none,
    dependencies := [], devDependencies := [], scripts := [] }

def updatePackageJsonWith (fs : GenFS) (pj : PackageManifest) : GenFS × GeneratedFile :=
  let filePath := pathJoin outputDir "package.json.weam"
  (fs.write filePath (.json
     { pj with dependencies := spread2 pj.dependencies weamDeps,
               scripts := spread2 pj.scripts weamScripts }),
   { type := "package", path := filePath,
     description := "Updated package.json with Weam dependencies" })

/-- updatePackageJson: read the live manifest of the app when present
(an empty object otherwise), merge in the required dependency set with
the required versions winning, merge in the two fixed script entries,
and write the result next to the other generated artifacts under the
patch file name, never to the live manifest path. -/
def updatePackageJson (fs : GenFS) (info : AppInfo) : Except String (GenFS × GeneratedFile) :=
  match fs.read (pathJoin info.path "package.json") with
  | some (.text _) => .error "readJson: invalid structured data"
  | some (.json pj) => .ok (updatePackageJsonWith fs pj)
  | none => .ok (updatePackageJsonWith fs emptyManifest)

def generateIntegration (render : TemplateCtx → String) (fs0 : GenFS) (info : AppInfo)
    (prefs : Preferences) : Except String (GenFS × List GeneratedFile) :=
  let s1 : GenFS × List GeneratedFile :=
    if prefs.addAuth then
      let r := generateSessionMiddleware render fs0 info
      (r.1, [r.2])
    else (fs0, [])
  let s2 :=
    if prefs.addDatabase then
      let r := generateDatabaseIntegration render s1.1 info
      (r.1, s1.2 ++ r.2)
    else s1
  let s3 :=
    if prefs.addBranding then
      let r := generateBranding render s2.1 prefs
      (r.1, s2.2 ++ r.2)
    else s2
  let s4 :=
    let r := generateProxyRoutes render s3.1 info prefs
    (r.1, s3.2 ++ r.2)
  let s5 :=
    let r := generateEnvironmentConfig render s4.1 info prefs
    (r.1, s4.2 ++ [r.2])
  let s6 :=
    let r := generateDocumentation render s5.1 info prefs
    (r.1, s5.2 ++ [r.2])
  match updatePackageJson s6.1 info with
  | .error e => .error ("Failed to generate integration: " ++ e)
  | .ok r => .ok (r.1, s6.2 ++ [r.2])

/-! ## Generator filesystem lemmas -/

def orO {α : Type} : Option α → Option α → Option α
  | some v, _ => some v
  | none, b => b

theorem lookupG_append {α : Type} (a b : List (String × α)) (k : String) :
    lookupG (a ++ b) k = orO (lookupG a k) (lookupG b k) := by
  induction a with
  | nil => rfl
  | cons kv rest ih =>
    by_cases h : k = kv.1 <;> simp [lookupG, h, orO, ih]

theorem lookupG_removeG {α : Type} (l : List (String × α)) (p q : String) (h : q ≠ p) :
    lookupG (removeG l p) q = lookupG l q := by
  induction l with
  | nil => rfl
  | cons kv rest ih =>
    by_cases hk : kv.1 = p
    · have hq : q ≠ kv.1 := fun he => h (he.trans hk)
      simp [removeG, lookupG, hk, hq, h, ih]
    · simp only [removeG, if_neg hk]
      by_cases hq : q = kv.1
      · simp [lookupG, hq]
      · simp [lookupG, hq, ih]

theorem GenFS.read_write_ne (fs : GenFS) (p : String) (d : FileData) (q : String)
    (h : q ≠ p) : (fs.write p d).read q = fs.read q := by
  simp [GenFS.read, GenFS.write, lookupG, h, lookupG_removeG fs.files p q h]

theorem GenFS.read_write_self (fs : GenFS) (p : String) (d : FileData) :
    (fs.write p d).read p = some d := by
  simp [GenFS.read, GenFS.write, lookupG]

/-- Two joined paths differ when their final components end in
different characters. -/
theorem pathJoin_ne_of_last (a1 a2 : String) {b1 b2 : String}
    (h : b1.data.getLast? ≠ b2.data.getLast?) (hb1 : b1.data ≠ []) (hb2 : b2.data ≠ []) :
    pathJoin a1 b1 ≠ pathJoin a2 b2 := by
  intro he
  have hd : (a1 ++ "/").data ++ b1.data = (a2 ++ "/").data ++ b2.data := congrArg String.data he
  have g1 := List.getLast?_append_of_ne_nil (a1 ++ "/").data hb1
  have g2 := List.getLast?_append_of_ne_nil (a2 ++ "/").data hb2
  exact h (g1.symm.trans (by rw [hd, g2]))

/-! ## C4 : the dependency-manifest patch -/

/-- Claim C4: the manifest patch keeps the existing dependency mapping,
overridden by the fixed required package set (required versions win on
every collision), merges in exactly the two fixed script entries, and
writes the result to a path distinct from the live manifest, which is
left unchanged. -/
theorem manifest_patch_merge (fs : GenFS) (info : AppInfo) (pj : PackageManifest)
    (hread : fs.read (pathJoin info.path "package.json") = some (.json pj)) :
    ∃ fs2 gf newPj,
      updatePackageJson fs info = .ok (fs2, gf) ∧
      fs2.read gf.path = some (.json newPj) ∧
      (∀ k, lookupG newPj.dependencies k
        = orO (lookupG weamDeps k) (lookupG pj.dependencies k)) ∧
      (∀ k, lookupG newPj.scripts k
        = orO (lookupG weamScripts k) (lookupG pj.scripts k)) ∧
      gf.path ≠ pathJoin info.path "package.json" ∧
      fs2.read (pathJoin info.path "package.json") = some (.json pj) := by
  have hne : pathJoin outputDir "package.json.weam" ≠ pathJoin info.path "package.json" :=
    pathJoin_ne_of_last outputDir info.path (by decide) (by decide) (by decide)
  refine ⟨(updatePackageJsonWith fs pj).1, (updatePackageJsonWith fs pj).2,
    { pj with dependencies := spread2 pj.dependencies weamDeps,
              scripts := spread2 pj.scripts weamScripts }, ?_, ?_, ?_, ?_, hne, ?_⟩
  · unfold updatePackageJson
    rw [hread]
  · exact GenFS.read_write_self fs (pathJoin outputDir "package.json.weam") _
  · intro k
    exact lookupG_append weamDeps pj.dependencies k
  · intro k
    exact lookupG_append weamScripts pj.scripts k
  · show (fs.write (pathJoin outputDir "package.json.weam") _).read
        (pathJoin info.path "package.json") = some (.json pj)
    rw [GenFS.read_write_ne fs _ _ _ (fun he => hne he.symm)]
    exact hread

/-- Witness for C4: a live manifest pinning one required package to a
different version and carrying one unrelated package; the patch keeps
the unrelated package, overrides the pinned one, and the live manifest
still holds its old payload afterwards. -/
theorem manifest_patch_merge_witness :
    ∃ fs2 gf newPj,
      updatePackageJson
        (GenFS.mk [("app/package.json",
          .json { name := some "demo", description := none, version := some "1.0.0",
                  dependencies := [("iron-session", "^5.0.0"), ("left-pad", "^1.3.0")],
                  devDependencies := [], scripts := [("start", "node index.js")] })])
        { initialAppInfo "app" with path := "app" } = .ok (fs2, gf) ∧
      fs2.read gf.path = some (.json newPj) ∧
      (∀ k, lookupG newPj.dependencies k
        = orO (lookupG weamDeps k)
            (lookupG [("iron-session", "^5.0.0"), ("left-pad", "^1.3.0")] k)) ∧
      (∀ k, lookupG newPj.scripts k
        = orO (lookupG weamScripts k) (lookupG [("start", "node index.js")] k)) ∧
      gf.path ≠ pathJoin "app" "package.json" ∧
      fs2.read (pathJoin "app" "package.json")
        = some (.json { name := some "demo", description := none, version := some "1.0.0",
                        dependencies := [("iron-session", "^5.0.0"), ("left-pad", "^1.3.0")],
                        devDependencies := [], scripts := [("start", "node index.js")] }) := by
  exact manifest_patch_merge
    (GenFS.mk [("app/package.json",
      .json { name := some "demo", description := none, version := some "1.0.0",
              dependencies := [("iron-session", "^5.0.0"), ("left-pad", "^1.3.0")],
              devDependencies := [], scripts := [("start", "node index.js")] })])
    { initialAppInfo "app" with path := "app" }
    { name := some "demo", description := none, version := some "1.0.0",
      dependencies := [("iron-session", "^5.0.0"), ("left-pad", "^1.3.0")],
      devDependencies := [], scripts := [("start", "node index.js")] }
    (by decide)

/-! ## C7 : conditional emission with all options off -/

/-- The output filesystem after the four unconditional template
expansions when every conditional flag is off. -/
def genFlagsOffFS (render : TemplateCtx → String) (fs : GenFS) (info : AppInfo)
    (prefs : Preferences) : GenFS :=
  (((fs.write (pathJoin outputDir "weam-proxy/[...path]/route.ts")
       (.text (render (.proxy prefs.appName info.path info.apiRoutes (getAppPort info))))).write
      (pathJoin outputDir "weam-page/page.tsx")
      (.text (render (.page prefs.appName prefs.description prefs.category)))).write
     (pathJoin outputDir ".env.weam")
     (.text (render (.envCfg prefs.appName (getAppPort info) prefs.addAuth prefs.addDatabase)))).write
    (pathJoin outputDir "WEAM_INTEGRATION.md")
    (.text (render (.doc prefs.appName prefs.description prefs.category info prefs)))

def genFlagsOffFiles : List GeneratedFile :=
  [{ type := "proxy", path := pathJoin outputDir "weam-proxy/[...path]/route.ts",
     description := "Weam proxy route for API forwarding" },
   { type := "page", path := pathJoin outputDir "weam-page/page.tsx",
     description := "Weam page component for Supersolutions" },
   { type := "config", path := pathJoin outputDir ".env.weam",
     description := "Environment configuration for Weam integration" },
   { type := "documentation", path := pathJoin outputDir "WEAM_INTEGRATION.md",
     description := "Integration documentation and setup guide" }]

theorem generateIntegration_flagsOff (render : TemplateCtx → String) (fs : GenFS)
    (info : AppInfo) (prefs : Preferences)
    (ha : prefs.addAuth = false) (hd2 : prefs.addDatabase = false)
    (hb : prefs.addBranding = false) :
    generateIntegration render fs info prefs
      = match updatePackageJson (genFlagsOffFS render fs info prefs) info with
        | .error e => .error ("Failed to generate integration: " ++ e)
        | .ok r => .ok (r.1, genFlagsOffFiles ++ [r.2]) := by
  unfold generateIntegration
  rw [ha, hd2, hb]
  rfl

theorem genFlagsOffFiles_types (pfile : GeneratedFile) (hp : pfile.type = "package") :
    ∀ f ∈ genFlagsOffFiles ++ [pfile],
      f.type ≠ "middleware" ∧ f.type ≠ "database" ∧ f.type ≠ "model" ∧
      f.type ≠ "component" ∧ f.type ≠ "styles" := by
  intro f hf
  rcases List.mem_append.mp hf with hm | hm
  · simp only [genFlagsOffFiles, List.mem_cons, List.not_mem_nil, or_false] at hm
    rcases hm with rfl | rfl | rfl | rfl <;>
      exact ⟨by decide, by decide, by decide, by decide, by decide⟩
  · rw [List.mem_singleton] at hm
    subst hm
    rw [hp]
    exact ⟨by decide, by decide, by decide, by decide, by decide⟩

/-- Claim C7: with addAuth, addDatabase and addBranding all false, the
generated file list is exactly the five unconditional artifacts (proxy
route, landing page, environment config, documentation and manifest
patch) and contains none of the conditional artifact kinds. -/
theorem conditional_emission_minimal (render : TemplateCtx → String) (fs : GenFS)
    (info : AppInfo) (prefs : Preferences)
    (ha : prefs.addAuth = false) (hd2 : prefs.addDatabase = false)
    (hb : prefs.addBranding = false)
    (hpj : ∀ s, fs.read (pathJoin info.path "package.json") ≠ some (.text s)) :
    ∃ fs2 gfs, generateIntegration render fs info prefs = .ok (fs2, gfs) ∧
      gfs.map (fun f => f.type) = ["proxy", "page", "config", "documentation", "package"] ∧
      ∀ f ∈ gfs, f.type ≠ "middleware" ∧ f.type ≠ "database" ∧ f.type ≠ "model" ∧
        f.type ≠ "component" ∧ f.type ≠ "styles" := by
  have hne1 : pathJoin info.path "package.json"
      ≠ pathJoin outputDir "weam-proxy/[...path]/route.ts" :=
    pathJoin_ne_of_last info.path outputDir (by decide) (by decide) (by decide)
  have hne2 : pathJoin info.path "package.json" ≠ pathJoin outputDir "weam-page/page.tsx" :=
    pathJoin_ne_of_last info.path outputDir (by decide) (by decide) (by decide)
  have hne3 : pathJoin info.path "package.json" ≠ pathJoin outputDir ".env.weam" :=
    pathJoin_ne_of_last info.path outputDir (by decide) (by decide) (by decide)
  have hne4 : pathJoin info.path "package.json" ≠ pathJoin outputDir "WEAM_INTEGRATION.md" :=
    pathJoin_ne_of_last info.path outputDir (by decide) (by decide) (by decide)
  have hlive : (genFlagsOffFS render fs info prefs).read (pathJoin info.path "package.json")
      = fs.read (pathJoin info.path "package.json") := by
    unfold genFlagsOffFS
    rw [GenFS.read_write_ne _ _ _ _ hne4, GenFS.read_write_ne _ _ _ _ hne3,
        GenFS.read_write_ne _ _ _ _ hne2, GenFS.read_write_ne _ _ _ _ hne1]
  rw [generateIntegration_flagsOff render fs info prefs ha hd2 hb]
  unfold updatePackageJson
  rw [hlive]
  cases hread : fs.read (pathJoin info.path "package.json") with
  | none => exact ⟨_, _, rfl, rfl, genFlagsOffFiles_types _ rfl⟩
  | some d =>
    cases d with
    | text s => exact absurd hread (hpj s)
    | json pj => exact ⟨_, _, rfl, rfl, genFlagsOffFiles_types _ rfl⟩

/-- Witness for C7 at a concrete model and preference set. -/
theorem conditional_emission_minimal_witness :
    ∃ fs2 gfs,
      generateIntegration (fun _ => "rendered") (GenFS.mk []) (initialAppInfo "app")
        (Preferences.mk "My App" "desc" "Productivity" false false false) = .ok (fs2, gfs) ∧
      gfs.map (fun f => f.type) = ["proxy", "page", "config", "documentation", "package"] ∧
      ∀ f ∈ gfs, f.type ≠ "middleware" ∧ f.type ≠ "database" ∧ f.type ≠ "model" ∧
        f.type ≠ "component" ∧ f.type ≠ "styles" := by
  exact conditional_emission_minimal (fun _ => "rendered") (GenFS.mk [])
    (initialAppInfo "app") (Preferences.mk "My App" "desc" "Productivity" false false false)
    rfl rfl rfl (fun s h => Option.noConfusion h)

/-! ## IntegrationTester

The tester mutates one counter object through six test steps; each step
wraps its own work in exception handlers, so with a well-formed file
list no step can throw.  The one uncaught throw is iterating a file
list that is not iterable (the argument being null or undefined),
modelled by the Option wrapper: the first two steps iterate the list
directly and raise before touching the counters; the raised error
carries the counter state at the throw point, as the mutated JS object
would.  The outer catch of testIntegration appends a suite error and
increments failed, and only the normal exit sets total.  File size and
the JSON parse check are modelled structurally: a stored JSON payload
serializes to a nonempty parseable text, raw text is not re-parsed (the
JSON grammar itself is not modelled); these check outcomes never touch
the total bookkeeping. -/

structure TestResults where
  passed : Nat
  failed : Nat
  total : Nat
  errors : List String
deriving DecidableEq

def initialTestResults : TestResults := { passed := 0, failed := 0, total := 0, errors := [] }

def TestResults.pass (r : TestResults) : TestResults := { r with passed := r.passed + 1 }

def TestResults.fail (r : TestResults) (e : String) : TestResults :=
  { r with failed := r.failed + 1, errors := r.errors ++ [e] }

def FileData.size : FileData → Nat
  | .text s => s.data.length
  | .json _ => 2

def contentText : FileData → String
  | .text s => s
  | .json _ => ""

def jsonParses : FileData → Bool
  | .json _ => true
  | .text _ => false

def testOneGenerated (fs : GenFS) (r : TestResults) (f : GeneratedFile) : TestResults :=
  match fs.read f.path with
  | some d =>
    if 0 < d.size then r.pass else r.fail (f.path ++ " is empty")
  | none => r.fail (f.path ++ " not found")

def testGeneratedFiles (fs : GenFS) (files? : Option (List GeneratedFile)) (r : TestResults) :
    Except (String × TestResults) TestResults :=
  match files? with
  | none => .error ("integrationFiles is not iterable", r)
  | some files => .ok (files.foldl (testOneGenerated fs) r)

def testOneSyntax (fs : GenFS) (r : TestResults) (f : GeneratedFile) : TestResults :=
  match fs.read f.path with
  | none => r.fail (f.path ++ ": Read error - ENOENT")
  | some d =>
    if strEndsWith f.path ".js" || strEndsWith f.path ".jsx" then
      if containsStr (contentText d) "const " || containsStr (contentText d) "function "
          || containsStr (contentText d) "module.exports"
      then r.pass else r.fail (f.path ++ " has unusual JavaScript structure")
    else if strEndsWith f.path ".ts" || strEndsWith f.path ".tsx" then
      if containsStr (contentText d) "import " || containsStr (contentText d) "export "
          || containsStr (contentText d) "interface "
      then r.pass else r.fail (f.path ++ " has unusual TypeScript structure")
    else if strEndsWith f.path ".json" then
      if jsonParses d then r.pass else r.fail (f.path ++ ": Invalid JSON")
    else r.pass

def testFileSyntax (fs : GenFS) (files? : Option (List GeneratedFile)) (r : TestResults) :
    Except (String × TestResults) TestResults :=
  match files? with
  | none => .error ("integrationFiles is not iterable", r)
  | some files => .ok (files.foldl (testOneSyntax fs) r)

def testAuthenticationSetup (fs : GenFS) (appPath : String) (r : TestResults) : TestResults :=
  match fs.read (pathJoin appPath "weam-integration/middleware/weamSession.js") with
  | some d =>
    if containsStr (contentText d) "iron-session"
        && containsStr (contentText d) "weamSessionMiddleware"
    then r.pass else r.fail "Weam session middleware missing required components"
  | none => r.fail "Weam session middleware not found"

def testDatabaseSetup (fs : GenFS) (appPath : String) (r : TestResults) : TestResults :=
  match fs.read (pathJoin appPath "weam-integration/lib/db.js") with
  | some d =>
    if containsStr (contentText d) "mongoose" && containsStr (contentText d) "weamUserFields"
    then r.pass else r.fail "Database integration missing required components"
  | none => r.fail "Database integration file not found"

def testProxyConfiguration (fs : GenFS) (files? : Option (List GeneratedFile))
    (r : TestResults) : TestResults :=
  match files? with
  | none => r.fail "Proxy test: integrationFiles is not iterable"
  | some files =>
    match files.find? (fun f => f.type == "proxy") with
    | some pf =>
      match fs.read pf.path with
      | some d =>
        if containsStr (contentText d) "NextRequest" && containsStr (contentText d) "fetch"
            && containsStr (contentText d) "APP_BASE_URL"
        then r.pass else r.fail "Proxy configuration missing required components"
      | none => r.fail "Proxy test: read error"
    | none => r.fail "Proxy configuration not found"

def testEnvironmentConfiguration (fs : GenFS) (files? : Option (List GeneratedFile))
    (r : TestResults) : TestResults :=
  match files? with
  | none => r.fail "Environment test: integrationFiles is not iterable"
  | some files =>
    match files.find? (fun f => f.type == "config") with
    | some ef =>
      match fs.read ef.path with
      | some d =>
        if containsStr (contentText d) "WEAM_COOKIE_NAME"
            && containsStr (contentText d) "MONGODB_URI"
            && containsStr (contentText d) "PORT"
        then r.pass else r.fail "Environment configuration missing required variables"
      | none => r.fail "Environment test: read error"
    | none => r.fail "Environment configuration not found"

def testIntegration (fs : GenFS) (appPath : String) (files? : Option (List GeneratedFile))
    (r0 : TestResults) : TestResults :=
  match testGeneratedFiles fs files? r0 with
  | .error (e, r) =>
    { r with failed := r.failed + 1, errors := r.errors ++ ["Test suite error: " ++ e] }
  | .ok r1 =>
    match testFileSyntax fs files? r1 with
    | .error (e, r) =>
      { r with failed := r.failed + 1, errors := r.errors ++ ["Test suite error: " ++ e] }
    | .ok r2 =>
      let r3 := testAuthenticationSetup fs appPath r2
      let r4 := testDatabaseSetup fs appPath r3
      let r5 := testProxyConfiguration fs files? r4
      let r6 := testEnvironmentConfiguration fs files? r5
      { r6 with total := r6.passed + r6.failed }

/-! ## C9 : the report total invariant -/

/-- Claim C9 counterexample: when the suite aborts (a non-iterable file
list), the catch handler increments failed without updating total, so
the returned report violates total = passed + failed. -/
theorem test_report_total_counterexample :
    (testIntegration (GenFS.mk []) "app" none initialTestResults).total
      ≠ (testIntegration (GenFS.mk []) "app" none initialTestResults).passed
        + (testIntegration (GenFS.mk []) "app" none initialTestResults).failed := by
  decide

/-- Claim C9 (amended): every report returned from a run whose file
list is iterable satisfies total = passed + failed, because the normal
exit recomputes total from the final counters; only the abort path
skips that recomputation. -/
theorem test_report_total_invariant (fs : GenFS) (appPath : String)
    (files : List GeneratedFile) (r0 : TestResults) :
    (testIntegration fs appPath (some files) r0).total
      = (testIntegration fs appPath (some files) r0).passed
        + (testIntegration fs appPath (some files) r0).failed := rfl

/-- Witness for the amended C9 theorem. -/
theorem test_report_total_invariant_witness :
    (testIntegration (GenFS.mk []) "app" (some []) initialTestResults).total
      = (testIntegration (GenFS.mk []) "app" (some []) initialTestResults).passed
        + (testIntegration (GenFS.mk []) "app" (some []) initialTestResults).failed :=
  test_report_total_invariant (GenFS.mk []) "app" [] initialTestResults

end WeamInt
